import Mathlib

/-!
Verification of the poll-diff-notify transaction monitors.

The development shallowly embeds the two monitor scripts
(`cashouts.py`, the crypto-withdrawal monitor, and `users.py`, the
deposit monitor) together with their helpers
(`project_transactions_data.py`, `merchants_data.py`).

The database tables are modelled as lists of records, the SQL queries as
the corresponding filter/sort/first operations, the Python dictionaries
(`previous_statuses`, `message_ts_map`, the merchant lookup) as
insertion-ordered association lists, and the Slack client as an oracle
returning, for each posted row, either a message timestamp or `none`
(a caught `SlackApiError`).  Every chat-API call attempt is recorded as a
`ChatEvent`, tagged with the id of the transaction row that triggered it.
-/

/-- Association-list lookup: first entry with the given key (Python
`dict.get` / SQL `fetchone` over an equality predicate). -/
def alistGet {α : Type} (m : List (Nat × α)) (k : Nat) : Option α :=
  (m.find? (fun e => e.1 == k)).map (fun e => e.2)

/-- Association-list store with Python-dict semantics: update the first
occurrence in place, otherwise append at the end (insertion order). -/
def alistSet {α : Type} : List (Nat × α) → Nat → α → List (Nat × α)
  | [], k, v => [(k, v)]
  | e :: rest, k, v => if e.1 == k then (k, v) :: rest else e :: alistSet rest k v

/-- Number of entries carrying the given key. -/
def countKeys {α : Type} (m : List (Nat × α)) (k : Nat) : Nat :=
  m.countP (fun e => e.1 == k)

/-- Insert into a list kept in descending key order (`ORDER BY id DESC`). -/
def insertDescBy {α : Type} (key : α → Nat) (x : α) : List α → List α
  | [] => [x]
  | y :: ys => if key x ≤ key y then y :: insertDescBy key x ys else x :: y :: ys

/-- Sort a list into descending key order (`ORDER BY id DESC`). -/
def sortDescBy {α : Type} (key : α → Nat) : List α → List α
  | [] => []
  | x :: xs => insertDescBy key x (sortDescBy key xs)

/-- Python truthiness of the watermark (`if last_processed_id:`): `None`
and `0` are falsy. -/
def watermarkTruthy : Option Nat → Bool
  | none => false
  | some n => n != 0

/-- Order on watermarks, with absent (`None`) below everything. -/
def optLe : Option Nat → Option Nat → Bool
  | none, _ => true
  | some _, none => false
  | some a, some b => decide (a ≤ b)

/-- One attempted chat-API call.  `initial` is a top-level
`chat_postMessage`; `threadReply` is a `chat_postMessage` with a
`thread_ts` argument.  Each event is tagged with the id of the
transaction row that triggered it. -/
inductive ChatEvent where
  | initial (rowId : Nat) (text : String)
  | threadReply (rowId : Nat) (threadTs : Option String) (text : String)
deriving DecidableEq, Repr

/-- Id of the transaction row that triggered an event. -/
def ChatEvent.rowIdOf : ChatEvent → Nat
  | .initial j _ => j
  | .threadReply j _ _ => j

/-- Event is an initial (non-threaded) message for row `i`. -/
def isInitialFor (i : Nat) : ChatEvent → Bool
  | .initial j _ => j == i
  | .threadReply _ _ _ => false

/-- Event is any chat call (initial or threaded) for row `i`. -/
def eventFor (i : Nat) (e : ChatEvent) : Bool :=
  e.rowIdOf == i

/-- The mutable state of a monitor loop: the module-global
`previous_statuses` dictionary, the loop-local `message_ts_map`
dictionary (whose values are the stored results of `send_slack_message`,
possibly `None`), and the watermark `last_processed_id`. -/
structure MonState where
  previous_statuses : List (Nat × String)
  message_ts_map : List (Nat × Option String)
  last_processed_id : Option Nat
deriving DecidableEq, Repr

/-- The state at entry of `monitor_transactions` before any cycle, with
a given startup watermark. -/
def initialState (w : Option Nat) : MonState :=
  { previous_statuses := [], message_ts_map := [], last_processed_id := w }

namespace Cashouts

/-- A row of `project_withdrawal_crypto_transactions`. -/
structure Row where
  id : Nat
  owner_merchant_id : Nat
  project_id : Nat
  amount : Int
  currency_network : String
  status : String
  created_at : Nat
  hash_transaction : String
deriving DecidableEq, Repr

/-- A row of the cross-database `core.project_transactions` table
(the columns selected by `get_project_transactions_data`). -/
structure PublicTransaction where
  id : Nat
  owner_merchant_id : Nat
  amount : Int
  created_at : Nat
deriving DecidableEq, Repr

/-- The external collaborators of one poll cycle: the withdrawal table,
the public-transactions table, the merchant lookup built by
`get_merchants_data`, the `projects` table as (id, name) rows, and the
Slack client as an oracle giving the `ts` returned for posting a given
row's initial message (`none` models a caught `SlackApiError`). -/
structure Env where
  table : List Row
  ptTable : List PublicTransaction
  merchants : List (Nat × String)
  projects : List (Nat × String)
  slackTs : Nat → Option String

/-- `get_status_text` of `cashouts.py` (lines 35-45). -/
def get_status_text (status : String) : String :=
  if status = "in_progress" then ":large_yellow_circle: Transaction in progress"
  else if status = "success" then ":large_green_circle: Transaction success\n"
  else if status = "rejected" then ":red_circle: Transaction decline"
  else if status = "pending" then ":exclamation: Transaction awaiting provider approval @operations"
  else status

/-- The f-string `message_template` of `send_slack_message` in
`cashouts.py` (lines 48-54), as explicit concatenation. -/
def send_message_text (t : Row) (project_name merchant_name : String)
    (real_transaction_id : Nat) : String :=
  ">*ManualCashout*\n:man_in_tuxedo: <https://cryptoprocessing-stage.corp.merehead.xyz/merchant/" ++
  toString t.owner_merchant_id ++ "/projects|" ++ merchant_name ++
  "> | <https://cryptoprocessing-stage.corp.merehead.xyz/merchant/" ++
  toString t.owner_merchant_id ++ "/projects/" ++ toString t.project_id ++
  "/settings/details|" ++ project_name ++
  ">\n:link: <https://cryptoprocessing-stage.corp.merehead.xyz/merchant/" ++
  toString t.owner_merchant_id ++ "/project/" ++ toString t.project_id ++
  "/transaction/details/" ++ toString real_transaction_id ++
  "/crypto/withdrawal|Transaction #" ++ toString real_transaction_id ++
  ">\n:money_with_wings: -" ++ toString t.amount ++ " " ++ t.currency_network ++
  "\n\n" ++ get_status_text t.status ++ "\n"

/-- `send_slack_message` of `cashouts.py` (lines 47-62): posts the
initial message and returns the `ts` of the response, or `None` when the
Slack call raises (the exception is caught and logged). -/
def send_slack_message (env : Env) (t : Row) (project_name merchant_name : String)
    (real_transaction_id : Nat) : Option String × List ChatEvent :=
  (env.slackTs t.id,
   [ChatEvent.initial t.id (send_message_text t project_name merchant_name real_transaction_id)])

/-- The text posted by `post_status_in_thread` of `cashouts.py`
(lines 64-72): the status text, plus a block-explorer link when the
status is `success` and the network is `trx` or `eth`. -/
def post_status_text (t : Row) : String :=
  let status_text := get_status_text t.status
  if t.status = "success" then
    if t.currency_network = "trx" then
      status_text ++ "\nhttps://tronscan.org/#/transaction/" ++ t.hash_transaction
    else if t.currency_network = "eth" then
      status_text ++ "\nhttps://etherscan.io/tx/" ++ t.hash_transaction
    else status_text
  else status_text

/-- `post_status_in_thread` of `cashouts.py` (lines 64-81): one threaded
`chat_postMessage`; a `SlackApiError` is caught and logged, affecting
nothing. -/
def post_status_in_thread (t : Row) (ts : Option String) : List ChatEvent :=
  [ChatEvent.threadReply t.id ts (post_status_text t)]

/-- `update_slack_message` of `cashouts.py` (lines 84-92): on the first
call for an id it records the current status and posts nothing; on a
status change it posts in the thread and records the new status;
otherwise it does nothing. -/
def update_slack_message (t : Row) (ts : Option String)
    (prev : List (Nat × String)) : List (Nat × String) × List ChatEvent :=
  match alistGet prev t.id with
  | none => (alistSet prev t.id t.status, [])
  | some previous_status =>
    if t.status ≠ previous_status then
      (alistSet prev t.id t.status, post_status_in_thread t ts)
    else (prev, [])

/-- `get_project_transactions_data` of `project_transactions_data.py`
(lines 22-37): the most recent 20 rows of `core.project_transactions`,
in descending id order. -/
def get_project_transactions_data (pt : List PublicTransaction) : List PublicTransaction :=
  (sortDescBy (fun t => t.id) pt).take 20

/-- The matching predicate of the real-transaction-id correlation loop
in `monitor_transactions` (`cashouts.py` lines 135-142): exact equality
of amount, owner merchant id and creation timestamp. -/
def pt_matches (t : PublicTransaction) (row : Row) : Bool :=
  t.amount == row.amount && t.owner_merchant_id == row.owner_merchant_id &&
    t.created_at == row.created_at

/-- The correlation loop itself: the id of the first matching entry of
the recent public transactions, or `None`. -/
def real_transaction_id_of (ptd : List PublicTransaction) (row : Row) : Option Nat :=
  (ptd.find? (fun t => pt_matches t row)).map (fun t => t.id)

/-- The `SELECT name FROM projects WHERE id = ...` + `fetchone` lookup. -/
def project_name_of (env : Env) (row : Row) : String :=
  match alistGet env.projects row.project_id with
  | some name => name
  | none => "Unknown"

/-- The body of `for row in result:` in `monitor_transactions`
(`cashouts.py` lines 126-155): resolve names, correlate the real
transaction id (skipping the row with a warning when absent), send the
initial message, then either record the handle and advance the watermark
(id not yet in `message_ts_map`) or run the update path on the stored
handle. -/
def processRow (env : Env) (st : MonState) (row : Row) : MonState × List ChatEvent :=
  let ptd := get_project_transactions_data env.ptTable
  let merchant_name := (alistGet env.merchants row.owner_merchant_id).getD "Unknown"
  let project_name := project_name_of env row
  match real_transaction_id_of ptd row with
  | none => (st, [])
  | some real_transaction_id =>
    let sent := send_slack_message env row project_name merchant_name real_transaction_id
    match alistGet st.message_ts_map row.id with
    | none =>
      ({ st with message_ts_map := alistSet st.message_ts_map row.id sent.1,
                 last_processed_id := some row.id }, sent.2)
    | some stored =>
      match stored with
      | some ts2 =>
        if ts2 ≠ "" then
          let upd := update_slack_message row (some ts2) st.previous_statuses
          ({ st with previous_statuses := upd.1 }, sent.2 ++ upd.2)
        else (st, sent.2)
      | none => (st, sent.2)

/-- The rows returned by the polling query before ordering: all rows,
filtered by `id > last_processed_id` only when the watermark is truthy. -/
def queryRows (table : List Row) (w : Option Nat) : List Row :=
  match w with
  | some n => if n ≠ 0 then table.filter (fun r => decide (n < r.id)) else table
  | none => table

/-- The polling query of `monitor_transactions` (`cashouts.py`
lines 118-124): optional watermark filter, then `ORDER BY id DESC`. -/
def queryBatch (table : List Row) (w : Option Nat) : List Row :=
  sortDescBy (fun r => r.id) (queryRows table w)

/-- Whether a row passes the watermark filter of the polling query. -/
def queryKeeps (w : Option Nat) (r : Row) : Bool :=
  match w with
  | some n => if n ≠ 0 then decide (n < r.id) else true
  | none => true

/-- The first `for` loop of a poll cycle, over the query batch. -/
def runBatch (env : Env) : MonState → List Row → MonState × List ChatEvent
  | st, [] => (st, [])
  | st, row :: rest =>
    let step := processRow env st row
    let next := runBatch env step.1 rest
    (next.1, step.2 ++ next.2)

/-- `SELECT * ... WHERE id = ...` + `fetchone`: first row with the id. -/
def fetchById (table : List Row) (i : Nat) : Option Row :=
  table.find? (fun r => r.id == i)

/-- The reconciliation loop of a poll cycle (`cashouts.py`
lines 157-163): re-query every id in `message_ts_map` and run
`update_slack_message` on the fresh row when it exists. -/
def runReconcile (env : Env) : MonState → List (Nat × Option String) → MonState × List ChatEvent
  | st, [] => (st, [])
  | st, (transaction_id, ts) :: rest =>
    match fetchById env.table transaction_id with
    | none => runReconcile env st rest
    | some row =>
      let upd := update_slack_message row ts st.previous_statuses
      let next := runReconcile env { st with previous_statuses := upd.1 } rest
      (next.1, upd.2 ++ next.2)

/-- One iteration of the `while True:` loop of `monitor_transactions`
(`cashouts.py` lines 114-168): run the batch loop over the polling query,
then the reconciliation loop over the correlation map. -/
def monitorCycle (env : Env) (st : MonState) : MonState × List ChatEvent :=
  let batch := queryBatch env.table st.last_processed_id
  let afterBatch := runBatch env st batch
  let afterRec := runReconcile env afterBatch.1 afterBatch.1.message_ts_map
  (afterRec.1, afterBatch.2 ++ afterRec.2)

/-- `get_current_last_id` of `cashouts.py` (lines 94-107): the highest
id currently in the table, or `None` when the table is empty. -/
def get_current_last_id (table : List Row) : Option Nat :=
  ((sortDescBy (fun r => r.id) table).head?).map (fun r => r.id)

end Cashouts

namespace Users

/-- A row of `project_deposit_crypto_transactions`; `risk_score` is a
nullable numeric column. -/
structure Row where
  id : Nat
  owner_merchant_id : Nat
  project_id : Nat
  amount : Int
  currency_name : String
  status : String
  created_at : Nat
  risk_score : Option ℚ
deriving DecidableEq, Repr

/-- The external collaborators of the deposit monitor. -/
structure Env where
  table : List Row
  ptTable : List Cashouts.PublicTransaction
  merchants : List (Nat × String)
  projects : List (Nat × String)
  slackTs : Nat → Option String

/-- `get_status_text` of `users.py` (lines 36-46); unlike the
withdrawal variant, the success text carries no trailing newline. -/
def get_status_text (status : String) : String :=
  if status = "in_progress" then ":large_yellow_circle: Transaction in progress"
  else if status = "success" then ":large_green_circle: Transaction success"
  else if status = "rejected" then ":red_circle: Transaction decline"
  else if status = "pending" then ":exclamation: Transaction awaiting provider approval @operations"
  else status

/-- Display of the nullable risk score inside the message f-string. -/
def riskShow : Option ℚ → String
  | none => "None"
  | some q => toString q

/-- The `message_text` f-string of `send_slack_message` in `users.py`
(lines 67-74), as explicit concatenation. -/
def send_message_text (t : Row) (project_name merchant_name : String)
    (real_transaction_id : Nat) : String :=
  ">*Deposit transaction by <https://cryptoprocessing-stage.corp.merehead.xyz/merchant/" ++
  toString t.owner_merchant_id ++ "/projects|" ++ merchant_name ++
  "> for project <https://cryptoprocessing-stage.corp.merehead.xyz/merchant/" ++
  toString t.owner_merchant_id ++ "/projects/" ++ toString t.project_id ++
  "/settings/details|" ++ project_name ++ ">*\n\n:money_with_wings: Amount: " ++
  toString t.amount ++ " " ++ t.currency_name ++ "\n:name_badge: Risk Score: " ++
  riskShow t.risk_score ++
  "\n\n<https://cryptoprocessing-stage.corp.merehead.xyz/merchant/" ++
  toString t.owner_merchant_id ++ "/project/" ++ toString t.project_id ++
  "/transaction/details/" ++ toString real_transaction_id ++
  "/crypto/depos|Transaction #" ++ toString real_transaction_id ++ ">\n\n" ++
  get_status_text t.status ++ "\n"

/-- `send_slack_message` of `users.py` (lines 60-84): posts the initial
message; returns the response `ts`, or explicitly `None` on a caught
`SlackApiError`. -/
def send_slack_message (env : Env) (t : Row) (project_name merchant_name : String)
    (real_transaction_id : Nat) : Option String × List ChatEvent :=
  (env.slackTs t.id,
   [ChatEvent.initial t.id (send_message_text t project_name merchant_name real_transaction_id)])

/-- `post_status_in_thread` of `users.py` (lines 48-58): one threaded
reply with the bare status text (no block-explorer link here). -/
def post_status_in_thread (t : Row) (ts : Option String) : List ChatEvent :=
  [ChatEvent.threadReply t.id ts (get_status_text t.status)]

/-- `update_slack_message` of `users.py` (lines 87-95), identical in
structure to the withdrawal variant. -/
def update_slack_message (t : Row) (ts : Option String)
    (prev : List (Nat × String)) : List (Nat × String) × List ChatEvent :=
  match alistGet prev t.id with
  | none => (alistSet prev t.id t.status, [])
  | some previous_status =>
    if t.status ≠ previous_status then
      (alistSet prev t.id t.status, post_status_in_thread t ts)
    else (prev, [])

/-- The deposit-variant skip guard (`users.py` lines 125-126):
`if row['risk_score'] is None or row['risk_score'] <= 0.5: continue`. -/
def riskSkip (t : Row) : Bool :=
  match t.risk_score with
  | none => true
  | some q => decide (q ≤ (1 : ℚ)/2)

/-- The matching predicate of the correlation loop in `users.py`
(lines 136-143), same three exact-equality columns. -/
def pt_matches (t : Cashouts.PublicTransaction) (row : Row) : Bool :=
  t.amount == row.amount && t.owner_merchant_id == row.owner_merchant_id &&
    t.created_at == row.created_at

/-- The correlation loop of `users.py`: first matching recent public
transaction, or `None`. -/
def real_transaction_id_of (ptd : List Cashouts.PublicTransaction) (row : Row) : Option Nat :=
  (ptd.find? (fun t => pt_matches t row)).map (fun t => t.id)

/-- The `projects` lookup of `users.py` (lines 130-133). -/
def project_name_of (env : Env) (row : Row) : String :=
  match alistGet env.projects row.project_id with
  | some name => name
  | none => "Unknown"

/-- The body of `for row in result:` in `monitor_transactions` of
`users.py` (lines 124-156): rows with a null or low risk score are
skipped up front; otherwise the structure is identical to the
withdrawal variant. -/
def processRow (env : Env) (st : MonState) (row : Row) : MonState × List ChatEvent :=
  if riskSkip row then (st, [])
  else
    let ptd := Cashouts.get_project_transactions_data env.ptTable
    let merchant_name := (alistGet env.merchants row.owner_merchant_id).getD "Unknown"
    let project_name := project_name_of env row
    match real_transaction_id_of ptd row with
    | none => (st, [])
    | some real_transaction_id =>
      let sent := send_slack_message env row project_name merchant_name real_transaction_id
      match alistGet st.message_ts_map row.id with
      | none =>
        ({ st with message_ts_map := alistSet st.message_ts_map row.id sent.1,
                   last_processed_id := some row.id }, sent.2)
      | some stored =>
        match stored with
        | some ts2 =>
          if ts2 ≠ "" then
            let upd := update_slack_message row (some ts2) st.previous_statuses
            ({ st with previous_statuses := upd.1 }, sent.2 ++ upd.2)
          else (st, sent.2)
        | none => (st, sent.2)

end Users

/-! Concrete fixtures used by the witness and counterexample theorems. -/

/-- A withdrawal row, id 1, on the `eth` network. -/
def exRow1 : Cashouts.Row :=
  { id := 1, owner_merchant_id := 10, project_id := 100, amount := 5,
    currency_network := "eth", status := "in_progress", created_at := 1000,
    hash_transaction := "0xabc" }

/-- A withdrawal row, id 2, on the `trx` network. -/
def exRow2 : Cashouts.Row :=
  { id := 2, owner_merchant_id := 10, project_id := 100, amount := 7,
    currency_network := "trx", status := "in_progress", created_at := 2000,
    hash_transaction := "0xdef" }

/-- A public transaction correlating with `exRow1`. -/
def exPt1 : Cashouts.PublicTransaction :=
  { id := 501, owner_merchant_id := 10, amount := 5, created_at := 1000 }

/-- A public transaction correlating with `exRow2`. -/
def exPt2 : Cashouts.PublicTransaction :=
  { id := 502, owner_merchant_id := 10, amount := 7, created_at := 2000 }

/-- An environment with two correlatable withdrawal rows and a Slack
client that always succeeds. -/
def envA : Cashouts.Env :=
  { table := [exRow1, exRow2], ptTable := [exPt1, exPt2],
    merchants := [(10, "Acme")], projects := [(100, "Checkout")],
    slackTs := fun i => some ("ts" ++ toString i) }

/-- The empty starting state with no watermark. -/
def stA0 : MonState := initialState none

/-- The state of `envA` after its first poll cycle. -/
def stA1 : MonState := (Cashouts.monitorCycle envA stA0).1

/-- The state after processing `exRow2` alone from the empty state. -/
def stepA : MonState := (Cashouts.processRow envA stA0 exRow2).1

/-- The state after then processing `exRow1` (the next row of the
descending batch). -/
def stepB : MonState := (Cashouts.processRow envA stepA exRow1).1

/-- An environment with one correlatable withdrawal row and a Slack
client whose sends always fail with `SlackApiError`. -/
def envB : Cashouts.Env :=
  { table := [exRow1], ptTable := [exPt1],
    merchants := [(10, "Acme")], projects := [(100, "Checkout")],
    slackTs := fun _ => none }

/-- The state of `envB` after its first poll cycle. -/
def stB1 : MonState := (Cashouts.monitorCycle envB stA0).1

/-- A withdrawal row matching no recent public transaction of `envA`. -/
def noMatchRow : Cashouts.Row :=
  { id := 3, owner_merchant_id := 10, project_id := 100, amount := 99,
    currency_network := "eth", status := "in_progress", created_at := 3000,
    hash_transaction := "0x99" }

/-- A withdrawal row owned by merchant 999 in project 998, both absent
from the lookup tables of `env8`. -/
def exRow8 : Cashouts.Row :=
  { id := 9, owner_merchant_id := 999, project_id := 998, amount := 5,
    currency_network := "eth", status := "in_progress", created_at := 1000,
    hash_transaction := "0xaa" }

/-- An environment where `exRow8` correlates but its merchant and
project are unknown to the lookup tables. -/
def env8 : Cashouts.Env :=
  { table := [exRow8],
    ptTable := [{ id := 777, owner_merchant_id := 999, amount := 5, created_at := 1000 }],
    merchants := [(10, "Acme")], projects := [(100, "Checkout")],
    slackTs := fun i => some ("ts" ++ toString i) }

/-- A successful `eth` withdrawal row (status already `success`). -/
def exRowEth : Cashouts.Row :=
  { id := 1, owner_merchant_id := 10, project_id := 100, amount := 5,
    currency_network := "eth", status := "success", created_at := 1000,
    hash_transaction := "0xabc" }

/-- A deposit row with a NULL risk score. -/
def exDepositRow : Users.Row :=
  { id := 4, owner_merchant_id := 10, project_id := 100, amount := 5,
    currency_name := "usdt", status := "in_progress", created_at := 1000,
    risk_score := none }

/-- A minimal deposit-monitor environment. -/
def envU : Users.Env :=
  { table := [exDepositRow], ptTable := [], merchants := [], projects := [],
    slackTs := fun _ => none }

/-! Helper lemmas about the association-list operations. -/

theorem alistGet_nil {α : Type} (k : Nat) : alistGet ([] : List (Nat × α)) k = none := rfl

theorem alistGet_cons {α : Type} (e : Nat × α) (m : List (Nat × α)) (k : Nat) :
    alistGet (e :: m) k = if e.1 = k then some e.2 else alistGet m k := by
  by_cases h : e.1 = k
  · simp [alistGet, List.find?_cons, h]
  · simp [alistGet, List.find?_cons, h]

theorem alistGet_set_self {α : Type} (m : List (Nat × α)) (k : Nat) (v : α) :
    alistGet (alistSet m k v) k = some v := by
  induction m with
  | nil => simp [alistSet, alistGet_cons, alistGet_nil]
  | cons a m ih =>
    by_cases h : a.1 = k
    · simp [alistSet, h, alistGet_cons]
    · simp [alistSet, h, alistGet_cons, ih]

theorem alistGet_set_ne {α : Type} (m : List (Nat × α)) (k j : Nat) (v : α)
    (h : j ≠ k) : alistGet (alistSet m k v) j = alistGet m j := by
  induction m with
  | nil => simp [alistSet, alistGet_cons, alistGet_nil, Ne.symm h]
  | cons a m ih =>
    by_cases hk : a.1 = k
    · simp [alistSet, hk, alistGet_cons, Ne.symm h]
    · simp [alistSet, hk, alistGet_cons, ih]

theorem countKeys_nil {α : Type} (k : Nat) : countKeys ([] : List (Nat × α)) k = 0 := rfl

theorem countKeys_cons {α : Type} (e : Nat × α) (m : List (Nat × α)) (k : Nat) :
    countKeys (e :: m) k = countKeys m k + if e.1 = k then 1 else 0 := by
  by_cases h : e.1 = k <;> simp [countKeys, List.countP_cons, h]

theorem countKeys_set_ne {α : Type} (m : List (Nat × α)) (k j : Nat) (v : α)
    (h : j ≠ k) : countKeys (alistSet m k v) j = countKeys m j := by
  induction m with
  | nil => simp [alistSet, countKeys_cons, countKeys_nil, Ne.symm h]
  | cons a m ih =>
    by_cases hk : a.1 = k
    · simp [alistSet, hk, countKeys_cons, Ne.symm h]
    · simp [alistSet, hk, countKeys_cons, ih]

theorem alistGet_eq_none_iff {α : Type} (m : List (Nat × α)) (k : Nat) :
    alistGet m k = none ↔ ∀ e ∈ m, e.1 ≠ k := by
  simp [alistGet, List.find?_eq_none]

theorem countKeys_eq_zero_of_get_none {α : Type} (m : List (Nat × α)) (k : Nat)
    (h : alistGet m k = none) : countKeys m k = 0 := by
  rw [alistGet_eq_none_iff] at h
  simp only [countKeys]
  rw [List.countP_eq_zero]
  intro e he
  simp [h e he]

theorem alistSet_of_get_none {α : Type} (m : List (Nat × α)) (k : Nat) (v : α)
    (h : alistGet m k = none) : alistSet m k v = m ++ [(k, v)] := by
  induction m with
  | nil => simp [alistSet]
  | cons a m ih =>
    rw [alistGet_cons] at h
    by_cases hk : a.1 = k
    · simp [hk] at h
    · simp [hk] at h
      simp [alistSet, hk, ih h]

theorem countKeys_set_fresh {α : Type} (m : List (Nat × α)) (k : Nat) (v : α)
    (h : alistGet m k = none) : countKeys (alistSet m k v) k = 1 := by
  rw [alistSet_of_get_none m k v h]
  have h0 : countKeys m k = 0 := countKeys_eq_zero_of_get_none m k h
  show (m ++ [(k, v)]).countP (fun e => e.1 == k) = 1
  rw [List.countP_append]
  have h1 : m.countP (fun e => e.1 == k) = 0 := h0
  simp [h1]

/-! Helper lemmas about the descending sort modelling `ORDER BY id DESC`. -/

theorem perm_insertDescBy {α : Type} (key : α → Nat) (x : α) (l : List α) :
    List.Perm (insertDescBy key x l) (x :: l) := by
  induction l with
  | nil => simp [insertDescBy]
  | cons y ys ih =>
    by_cases h : key x ≤ key y
    · simp only [insertDescBy, if_pos h]
      exact (ih.cons y).trans (List.Perm.swap x y ys)
    · simp [insertDescBy, if_neg h]

theorem perm_sortDescBy {α : Type} (key : α → Nat) (l : List α) :
    List.Perm (sortDescBy key l) l := by
  induction l with
  | nil => simp [sortDescBy]
  | cons x xs ih =>
    exact (perm_insertDescBy key x (sortDescBy key xs)).trans (ih.cons x)

theorem mem_sortDescBy {α : Type} (key : α → Nat) (l : List α) (x : α) :
    x ∈ sortDescBy key l ↔ x ∈ l :=
  (perm_sortDescBy key l).mem_iff

/-! A characterization of `List.find?` as the first match. -/

theorem find?_first_split {α : Type} {p : α → Bool} :
    ∀ {l : List α} {a : α}, l.find? p = some a →
      ∃ l1 l2, l = l1 ++ a :: l2 ∧ (∀ x ∈ l1, p x = false) ∧ p a = true := by
  intro l
  induction l with
  | nil => intro a h; simp [List.find?] at h
  | cons x xs ih =>
    intro a h
    by_cases hp : p x
    · rw [List.find?_cons_of_pos _ hp] at h
      obtain rfl : x = a := by simpa using h
      exact ⟨[], xs, by simp, by simp, hp⟩
    · rw [List.find?_cons_of_neg _ (by simpa using hp)] at h
      obtain ⟨l1, l2, hsplit, hall, hpa⟩ := ih h
      refine ⟨x :: l1, l2, by simp [hsplit], ?_, hpa⟩
      intro z hz
      rcases List.mem_cons.1 hz with rfl | hz2
      · simpa using hp
      · exact hall z hz2

/-! Helper lemmas about the polling query. -/

theorem mem_queryRows (table : List Cashouts.Row) (w : Option Nat) (r : Cashouts.Row) :
    r ∈ Cashouts.queryRows table w ↔ r ∈ table ∧ Cashouts.queryKeeps w r = true := by
  cases w with
  | none => simp [Cashouts.queryRows, Cashouts.queryKeeps]
  | some n =>
    by_cases hn : n = 0
    · simp [Cashouts.queryRows, Cashouts.queryKeeps, hn]
    · simp [Cashouts.queryRows, Cashouts.queryKeeps, hn, List.mem_filter]

theorem mem_queryBatch (table : List Cashouts.Row) (w : Option Nat) (r : Cashouts.Row) :
    r ∈ Cashouts.queryBatch table w ↔ r ∈ table ∧ Cashouts.queryKeeps w r = true := by
  rw [Cashouts.queryBatch, mem_sortDescBy]
  exact mem_queryRows table w r

theorem sublist_queryRows (table : List Cashouts.Row) (w : Option Nat) :
    (Cashouts.queryRows table w).Sublist table := by
  cases w with
  | none => exact List.Sublist.refl table
  | some n =>
    by_cases hn : n = 0
    · simp [Cashouts.queryRows, hn]
    · simp only [Cashouts.queryRows, if_pos hn]
      exact List.filter_sublist table

theorem nodup_queryBatch_ids (table : List Cashouts.Row) (w : Option Nat)
    (h : (table.map Cashouts.Row.id).Nodup) :
    ((Cashouts.queryBatch table w).map Cashouts.Row.id).Nodup := by
  have h2 : ((Cashouts.queryRows table w).map Cashouts.Row.id).Nodup :=
    ((sublist_queryRows table w).map Cashouts.Row.id).nodup h
  have hp : List.Perm ((Cashouts.queryBatch table w).map Cashouts.Row.id)
      ((Cashouts.queryRows table w).map Cashouts.Row.id) := by
    rw [Cashouts.queryBatch]
    exact (perm_sortDescBy (fun r => r.id) (Cashouts.queryRows table w)).map Cashouts.Row.id
  exact hp.nodup_iff.mpr h2

theorem optLe_refl (w : Option Nat) : optLe w w = true := by
  cases w <;> simp [optLe]

theorem optLe_of_queryKeeps (w : Option Nat) (r : Cashouts.Row)
    (h : Cashouts.queryKeeps w r = true) : optLe w (some r.id) = true := by
  cases w with
  | none => rfl
  | some n =>
    by_cases hn : n = 0
    · simp [hn, optLe]
    · simp [Cashouts.queryKeeps, hn] at h
      simp [optLe]
      exact Nat.le_of_lt h

/-! Helper lemmas about `update_slack_message` (withdrawal variant). -/

namespace Cashouts

theorem update_first_call (t : Row) (ts : Option String) (prev : List (Nat × String))
    (hp : alistGet prev t.id = none) :
    update_slack_message t ts prev = (alistSet prev t.id t.status, []) := by
  unfold update_slack_message
  rw [hp]

theorem update_noop (t : Row) (ts : Option String) (prev : List (Nat × String)) (s : String)
    (hp : alistGet prev t.id = some s) (hs : t.status = s) :
    update_slack_message t ts prev = (prev, []) := by
  unfold update_slack_message
  rw [hp]
  simp [hs]

theorem update_transition (t : Row) (ts : Option String) (prev : List (Nat × String)) (s : String)
    (hp : alistGet prev t.id = some s) (hs : t.status ≠ s) :
    update_slack_message t ts prev =
      (alistSet prev t.id t.status, post_status_in_thread t ts) := by
  unfold update_slack_message
  rw [hp]
  simp [hs]

theorem update_get_ne (t : Row) (ts : Option String) (prev : List (Nat × String)) (j : Nat)
    (h : j ≠ t.id) :
    alistGet (update_slack_message t ts prev).1 j = alistGet prev j := by
  unfold update_slack_message
  cases hp : alistGet prev t.id with
  | none => simp [alistGet_set_ne _ _ _ _ h]
  | some s =>
    by_cases hs : t.status = s
    · simp [hs]
    · simp [hs, alistGet_set_ne _ _ _ _ h]

theorem update_events_rowId (t : Row) (ts : Option String) (prev : List (Nat × String)) :
    ∀ e ∈ (update_slack_message t ts prev).2, e.rowIdOf = t.id := by
  unfold update_slack_message
  cases hp : alistGet prev t.id with
  | none => simp
  | some s =>
    by_cases hs : t.status = s
    · simp [hs]
    · simp [hs, post_status_in_thread, ChatEvent.rowIdOf]

theorem update_no_initial (t : Row) (ts : Option String) (prev : List (Nat × String)) (i : Nat) :
    (update_slack_message t ts prev).2.countP (isInitialFor i) = 0 := by
  unfold update_slack_message
  cases hp : alistGet prev t.id with
  | none => simp
  | some s =>
    by_cases hs : t.status = s
    · simp [hs]
    · simp [hs, post_status_in_thread, isInitialFor]

end Cashouts

/-! Helper lemmas about `processRow` (withdrawal variant). -/

namespace Cashouts

theorem processRow_skip (env : Env) (st : MonState) (row : Row)
    (h : real_transaction_id_of (get_project_transactions_data env.ptTable) row = none) :
    processRow env st row = (st, []) := by
  simp [processRow, h]

theorem processRow_fresh (env : Env) (st : MonState) (row : Row) (rid : Nat)
    (h1 : real_transaction_id_of (get_project_transactions_data env.ptTable) row = some rid)
    (h2 : alistGet st.message_ts_map row.id = none) :
    processRow env st row =
      ({ st with message_ts_map := alistSet st.message_ts_map row.id (env.slackTs row.id),
                 last_processed_id := some row.id },
       [ChatEvent.initial row.id
         (send_message_text row (project_name_of env row)
           ((alistGet env.merchants row.owner_merchant_id).getD "Unknown") rid)]) := by
  simp [processRow, h1, h2, send_slack_message]

theorem processRow_stored_none (env : Env) (st : MonState) (row : Row) (rid : Nat)
    (h1 : real_transaction_id_of (get_project_transactions_data env.ptTable) row = some rid)
    (h2 : alistGet st.message_ts_map row.id = some none) :
    processRow env st row =
      (st, [ChatEvent.initial row.id
        (send_message_text row (project_name_of env row)
          ((alistGet env.merchants row.owner_merchant_id).getD "Unknown") rid)]) := by
  simp [processRow, h1, h2, send_slack_message]

theorem processRow_stored_empty (env : Env) (st : MonState) (row : Row) (rid : Nat) (ts2 : String)
    (h1 : real_transaction_id_of (get_project_transactions_data env.ptTable) row = some rid)
    (h2 : alistGet st.message_ts_map row.id = some (some ts2)) (hts : ts2 = "") :
    processRow env st row =
      (st, [ChatEvent.initial row.id
        (send_message_text row (project_name_of env row)
          ((alistGet env.merchants row.owner_merchant_id).getD "Unknown") rid)]) := by
  simp [processRow, h1, h2, hts, send_slack_message]

theorem processRow_stored_ts (env : Env) (st : MonState) (row : Row) (rid : Nat) (ts2 : String)
    (h1 : real_transaction_id_of (get_project_transactions_data env.ptTable) row = some rid)
    (h2 : alistGet st.message_ts_map row.id = some (some ts2)) (hts : ts2 ≠ "") :
    processRow env st row =
      ({ st with previous_statuses := (update_slack_message row (some ts2) st.previous_statuses).1 },
       ChatEvent.initial row.id
         (send_message_text row (project_name_of env row)
           ((alistGet env.merchants row.owner_merchant_id).getD "Unknown") rid) ::
       (update_slack_message row (some ts2) st.previous_statuses).2) := by
  simp [processRow, h1, h2, hts, send_slack_message]

theorem processRow_events_rowId (env : Env) (st : MonState) (row : Row) :
    ∀ e ∈ (processRow env st row).2, e.rowIdOf = row.id := by
  intro e he
  cases h1 : real_transaction_id_of (get_project_transactions_data env.ptTable) row with
  | none =>
    rw [processRow_skip env st row h1] at he
    simp at he
  | some rid =>
    cases h2 : alistGet st.message_ts_map row.id with
    | none =>
      rw [processRow_fresh env st row rid h1 h2] at he
      simp at he
      simp [he, ChatEvent.rowIdOf]
    | some stored =>
      cases stored with
      | none =>
        rw [processRow_stored_none env st row rid h1 h2] at he
        simp at he
        simp [he, ChatEvent.rowIdOf]
      | some ts2 =>
        by_cases hts : ts2 = ""
        · rw [processRow_stored_empty env st row rid ts2 h1 h2 hts] at he
          simp at he
          simp [he, ChatEvent.rowIdOf]
        · rw [processRow_stored_ts env st row rid ts2 h1 h2 hts] at he
          simp only [List.mem_cons] at he
          rcases he with rfl | he2
          · rfl
          · exact update_events_rowId row (some ts2) st.previous_statuses e he2

end Cashouts

namespace Cashouts

theorem processRow_get_ts_ne (env : Env) (st : MonState) (row : Row) (j : Nat)
    (h : j ≠ row.id) :
    alistGet (processRow env st row).1.message_ts_map j = alistGet st.message_ts_map j := by
  cases h1 : real_transaction_id_of (get_project_transactions_data env.ptTable) row with
  | none => rw [processRow_skip env st row h1]
  | some rid =>
    cases h2 : alistGet st.message_ts_map row.id with
    | none =>
      rw [processRow_fresh env st row rid h1 h2]
      exact alistGet_set_ne _ _ _ _ h
    | some stored =>
      cases stored with
      | none => rw [processRow_stored_none env st row rid h1 h2]
      | some ts2 =>
        by_cases hts : ts2 = ""
        · rw [processRow_stored_empty env st row rid ts2 h1 h2 hts]
        · rw [processRow_stored_ts env st row rid ts2 h1 h2 hts]

theorem processRow_countKeys_ne (env : Env) (st : MonState) (row : Row) (j : Nat)
    (h : j ≠ row.id) :
    countKeys (processRow env st row).1.message_ts_map j = countKeys st.message_ts_map j := by
  cases h1 : real_transaction_id_of (get_project_transactions_data env.ptTable) row with
  | none => rw [processRow_skip env st row h1]
  | some rid =>
    cases h2 : alistGet st.message_ts_map row.id with
    | none =>
      rw [processRow_fresh env st row rid h1 h2]
      exact countKeys_set_ne _ _ _ _ h
    | some stored =>
      cases stored with
      | none => rw [processRow_stored_none env st row rid h1 h2]
      | some ts2 =>
        by_cases hts : ts2 = ""
        · rw [processRow_stored_empty env st row rid ts2 h1 h2 hts]
        · rw [processRow_stored_ts env st row rid ts2 h1 h2 hts]

theorem processRow_prev_get_ne (env : Env) (st : MonState) (row : Row) (j : Nat)
    (h : j ≠ row.id) :
    alistGet (processRow env st row).1.previous_statuses j = alistGet st.previous_statuses j := by
  cases h1 : real_transaction_id_of (get_project_transactions_data env.ptTable) row with
  | none => rw [processRow_skip env st row h1]
  | some rid =>
    cases h2 : alistGet st.message_ts_map row.id with
    | none => rw [processRow_fresh env st row rid h1 h2]
    | some stored =>
      cases stored with
      | none => rw [processRow_stored_none env st row rid h1 h2]
      | some ts2 =>
        by_cases hts : ts2 = ""
        · rw [processRow_stored_empty env st row rid ts2 h1 h2 hts]
        · rw [processRow_stored_ts env st row rid ts2 h1 h2 hts]
          exact update_get_ne row (some ts2) st.previous_statuses j h

theorem processRow_lastId (env : Env) (st : MonState) (row : Row) :
    (processRow env st row).1.last_processed_id = st.last_processed_id ∨
    (processRow env st row).1.last_processed_id = some row.id := by
  cases h1 : real_transaction_id_of (get_project_transactions_data env.ptTable) row with
  | none => rw [processRow_skip env st row h1]; exact Or.inl rfl
  | some rid =>
    cases h2 : alistGet st.message_ts_map row.id with
    | none => rw [processRow_fresh env st row rid h1 h2]; exact Or.inr rfl
    | some stored =>
      cases stored with
      | none => rw [processRow_stored_none env st row rid h1 h2]; exact Or.inl rfl
      | some ts2 =>
        by_cases hts : ts2 = ""
        · rw [processRow_stored_empty env st row rid ts2 h1 h2 hts]; exact Or.inl rfl
        · rw [processRow_stored_ts env st row rid ts2 h1 h2 hts]; exact Or.inl rfl

theorem processRow_initial_count (env : Env) (st : MonState) (row : Row) (i : Nat) :
    (processRow env st row).2.countP (isInitialFor i) =
      (if (real_transaction_id_of (get_project_transactions_data env.ptTable) row).isSome &&
          row.id == i then 1 else 0) := by
  cases h1 : real_transaction_id_of (get_project_transactions_data env.ptTable) row with
  | none => rw [processRow_skip env st row h1]; simp
  | some rid =>
    cases h2 : alistGet st.message_ts_map row.id with
    | none =>
      rw [processRow_fresh env st row rid h1 h2]
      simp [List.countP_cons, isInitialFor]
    | some stored =>
      cases stored with
      | none =>
        rw [processRow_stored_none env st row rid h1 h2]
        simp [List.countP_cons, isInitialFor]
      | some ts2 =>
        by_cases hts : ts2 = ""
        · rw [processRow_stored_empty env st row rid ts2 h1 h2 hts]
          simp [List.countP_cons, isInitialFor]
        · rw [processRow_stored_ts env st row rid ts2 h1 h2 hts]
          simp [List.countP_cons, isInitialFor,
            update_no_initial row (some ts2) st.previous_statuses i]

end Cashouts

/-- Events all tagged with a row id different from `i` contribute no
chat call counted for `i`. -/
theorem countP_eventFor_zero {evs : List ChatEvent} {j i : Nat}
    (h : ∀ e ∈ evs, e.rowIdOf = j) (hne : j ≠ i) : evs.countP (eventFor i) = 0 := by
  rw [List.countP_eq_zero]
  intro e he
  simp [eventFor, h e he, hne]

/-! Helper lemmas about the two loops of a poll cycle. -/

namespace Cashouts

theorem runBatch_append (env : Env) (l1 l2 : List Row) : ∀ st : MonState,
    runBatch env st (l1 ++ l2) =
      ((runBatch env (runBatch env st l1).1 l2).1,
       (runBatch env st l1).2 ++ (runBatch env (runBatch env st l1).1 l2).2) := by
  induction l1 with
  | nil => intro st; simp [runBatch]
  | cons r rs ih => intro st; simp [runBatch, ih, List.append_assoc]

theorem runBatch_eventFor_zero (env : Env) (i : Nat) : ∀ (l : List Row) (st : MonState),
    (∀ r ∈ l, r.id ≠ i) → (runBatch env st l).2.countP (eventFor i) = 0 := by
  intro l
  induction l with
  | nil => intro st h; simp [runBatch]
  | cons r rs ih =>
    intro st h
    simp only [runBatch, List.countP_append]
    rw [countP_eventFor_zero (processRow_events_rowId env st r) (h r (List.mem_cons_self r rs)),
      ih _ (fun x hx => h x (List.mem_cons_of_mem r hx))]

theorem runBatch_initial_count (env : Env) (i : Nat) : ∀ (l : List Row) (st : MonState),
    (runBatch env st l).2.countP (isInitialFor i) =
      l.countP (fun r =>
        (real_transaction_id_of (get_project_transactions_data env.ptTable) r).isSome &&
          r.id == i) := by
  intro l
  induction l with
  | nil => intro st; simp [runBatch]
  | cons r rs ih =>
    intro st
    simp only [runBatch, List.countP_append, List.countP_cons]
    rw [processRow_initial_count, ih]
    exact Nat.add_comm _ _

theorem runBatch_get_ts_preserve (env : Env) (i : Nat) : ∀ (l : List Row) (st : MonState),
    (∀ r ∈ l, r.id ≠ i) →
    alistGet (runBatch env st l).1.message_ts_map i = alistGet st.message_ts_map i := by
  intro l
  induction l with
  | nil => intro st h; simp [runBatch]
  | cons r rs ih =>
    intro st h
    simp only [runBatch]
    rw [ih _ (fun x hx => h x (List.mem_cons_of_mem r hx)),
      processRow_get_ts_ne env st r i (Ne.symm (h r (List.mem_cons_self r rs)))]

theorem runBatch_countKeys_preserve (env : Env) (i : Nat) : ∀ (l : List Row) (st : MonState),
    (∀ r ∈ l, r.id ≠ i) →
    countKeys (runBatch env st l).1.message_ts_map i = countKeys st.message_ts_map i := by
  intro l
  induction l with
  | nil => intro st h; simp [runBatch]
  | cons r rs ih =>
    intro st h
    simp only [runBatch]
    rw [ih _ (fun x hx => h x (List.mem_cons_of_mem r hx)),
      processRow_countKeys_ne env st r i (Ne.symm (h r (List.mem_cons_self r rs)))]

theorem runBatch_prev_preserve (env : Env) (i : Nat) : ∀ (l : List Row) (st : MonState),
    (∀ r ∈ l, r.id ≠ i) →
    alistGet (runBatch env st l).1.previous_statuses i = alistGet st.previous_statuses i := by
  intro l
  induction l with
  | nil => intro st h; simp [runBatch]
  | cons r rs ih =>
    intro st h
    simp only [runBatch]
    rw [ih _ (fun x hx => h x (List.mem_cons_of_mem r hx)),
      processRow_prev_get_ne env st r i (Ne.symm (h r (List.mem_cons_self r rs)))]

theorem runBatch_lastId_mono (env : Env) (w : Option Nat) : ∀ (l : List Row) (st : MonState),
    (∀ r ∈ l, optLe w (some r.id) = true) →
    optLe w st.last_processed_id = true →
    optLe w (runBatch env st l).1.last_processed_id = true := by
  intro l
  induction l with
  | nil => intro st h hst; simpa [runBatch] using hst
  | cons r rs ih =>
    intro st h hst
    simp only [runBatch]
    apply ih _ (fun x hx => h x (List.mem_cons_of_mem r hx))
    rcases processRow_lastId env st r with hc | hc
    · rw [hc]; exact hst
    · rw [hc]; exact h r (List.mem_cons_self r rs)

theorem runReconcile_tsMap (env : Env) : ∀ (es : List (Nat × Option String)) (st : MonState),
    (runReconcile env st es).1.message_ts_map = st.message_ts_map := by
  intro es
  induction es with
  | nil => intro st; simp [runReconcile]
  | cons e rest ih =>
    intro st
    obtain ⟨j, ts⟩ := e
    simp only [runReconcile]
    cases hf : fetchById env.table j with
    | none => exact ih st
    | some row => exact ih _

theorem runReconcile_lastId (env : Env) : ∀ (es : List (Nat × Option String)) (st : MonState),
    (runReconcile env st es).1.last_processed_id = st.last_processed_id := by
  intro es
  induction es with
  | nil => intro st; simp [runReconcile]
  | cons e rest ih =>
    intro st
    obtain ⟨j, ts⟩ := e
    simp only [runReconcile]
    cases hf : fetchById env.table j with
    | none => exact ih st
    | some row => exact ih _

theorem runReconcile_no_initial (env : Env) (i : Nat) :
    ∀ (es : List (Nat × Option String)) (st : MonState),
    (runReconcile env st es).2.countP (isInitialFor i) = 0 := by
  intro es
  induction es with
  | nil => intro st; simp [runReconcile]
  | cons e rest ih =>
    intro st
    obtain ⟨j, ts⟩ := e
    simp only [runReconcile]
    cases hf : fetchById env.table j with
    | none => exact ih st
    | some row =>
      simp only [List.countP_append]
      rw [update_no_initial row ts st.previous_statuses i, ih _]

theorem fetchById_id (table : List Row) (j : Nat) (row : Row)
    (hf : fetchById table j = some row) : row.id = j := by
  have := List.find?_some hf
  simpa using this

theorem fetchById_mem (table : List Row) (j : Nat) (row : Row)
    (hf : fetchById table j = some row) : row ∈ table :=
  List.mem_of_find?_eq_some hf

theorem runReconcile_cons_none (env : Env) (st : MonState) (j : Nat) (ts : Option String)
    (rest : List (Nat × Option String)) (hf : fetchById env.table j = none) :
    runReconcile env st ((j, ts) :: rest) = runReconcile env st rest := by
  simp [runReconcile, hf]

theorem runReconcile_cons_some (env : Env) (st : MonState) (j : Nat) (ts : Option String)
    (rest : List (Nat × Option String)) (row : Row) (hf : fetchById env.table j = some row) :
    runReconcile env st ((j, ts) :: rest) =
      ((runReconcile env
          { st with previous_statuses := (update_slack_message row ts st.previous_statuses).1 }
          rest).1,
       (update_slack_message row ts st.previous_statuses).2 ++
       (runReconcile env
          { st with previous_statuses := (update_slack_message row ts st.previous_statuses).1 }
          rest).2) := by
  simp [runReconcile, hf]

theorem runReconcile_eventFor_zero (env : Env) (i : Nat) (s : String)
    (htab : ∀ r ∈ env.table, r.id = i → r.status = s) :
    ∀ (es : List (Nat × Option String)) (st : MonState),
    alistGet st.previous_statuses i = some s →
    (runReconcile env st es).2.countP (eventFor i) = 0 := by
  intro es
  induction es with
  | nil => intro st hprev; simp [runReconcile]
  | cons e rest ih =>
    intro st hprev
    obtain ⟨j, ts⟩ := e
    cases hf : fetchById env.table j with
    | none =>
      rw [runReconcile_cons_none env st j ts rest hf]
      exact ih st hprev
    | some row =>
      rw [runReconcile_cons_some env st j ts rest row hf]
      have hrowid : row.id = j := fetchById_id env.table j row hf
      have hrowmem : row ∈ env.table := fetchById_mem env.table j row hf
      by_cases hji : j = i
      · have hst : row.status = s := htab row hrowmem (hrowid.trans hji)
        have hgp : alistGet st.previous_statuses row.id = some s := by
          rw [hrowid, hji]; exact hprev
        simp [update_noop row ts st.previous_statuses s hgp hst, List.countP_append]
        intro a ha
        have h0 := ih st hprev
        rw [List.countP_eq_zero] at h0
        simpa using h0 a ha
      · have hne : row.id ≠ i := fun he => hji (hrowid.symm.trans he)
        simp only [List.countP_append]
        rw [countP_eventFor_zero (update_events_rowId row ts st.previous_statuses) hne]
        have hprev2 : alistGet
            (update_slack_message row ts st.previous_statuses).1 i = some s := by
          rw [update_get_ne row ts st.previous_statuses i (Ne.symm hne)]
          exact hprev
        rw [ih _ hprev2]

end Cashouts

/-- A list whose only element satisfying `p` sits at a known position
has `countP p` equal to one. -/
theorem countP_eq_one_split {α : Type} {l1 l2 : List α} {a : α} {p : α → Bool}
    (hpa : p a = true) (h1 : ∀ x ∈ l1, p x = false) (h2 : ∀ x ∈ l2, p x = false) :
    (l1 ++ a :: l2).countP p = 1 := by
  rw [List.countP_append, List.countP_cons]
  rw [List.countP_eq_zero.2 (fun x hx => by simp [h1 x hx]),
    List.countP_eq_zero.2 (fun x hx => by simp [h2 x hx])]
  simp [hpa]

/-- Splitting a list with pairwise-distinct keys around one element:
every other element carries a different key. -/
theorem nodup_key_split {α : Type} (key : α → Nat) {l : List α} {a : α}
    (ha : a ∈ l) (hnodup : (l.map key).Nodup) :
    ∃ l1 l2, l = l1 ++ a :: l2 ∧ (∀ x ∈ l1, key x ≠ key a) ∧
      (∀ x ∈ l2, key x ≠ key a) := by
  obtain ⟨l1, l2, rfl⟩ := List.append_of_mem ha
  refine ⟨l1, l2, rfl, ?_, ?_⟩
  · rw [List.map_append, List.map_cons] at hnodup
    have hd := List.disjoint_of_nodup_append hnodup
    intro x hx he
    exact hd (he ▸ List.mem_map_of_mem key hx) (List.mem_cons_self _ _)
  · rw [List.map_append, List.map_cons] at hnodup
    have hr := hnodup.of_append_right
    rw [List.nodup_cons] at hr
    intro x hx he
    exact hr.1 (he ▸ List.mem_map_of_mem key hx)

namespace Cashouts

theorem runBatch_cons (env : Env) (st : MonState) (row : Row) (rest : List Row) :
    runBatch env st (row :: rest) =
      ((runBatch env (processRow env st row).1 rest).1,
       (processRow env st row).2 ++ (runBatch env (processRow env st row).1 rest).2) := rfl

theorem monitorCycle_eq (env : Env) (st : MonState) :
    monitorCycle env st =
      ((runReconcile env (runBatch env st (queryBatch env.table st.last_processed_id)).1
          (runBatch env st (queryBatch env.table st.last_processed_id)).1.message_ts_map).1,
       (runBatch env st (queryBatch env.table st.last_processed_id)).2 ++
       (runReconcile env (runBatch env st (queryBatch env.table st.last_processed_id)).1
          (runBatch env st (queryBatch env.table st.last_processed_id)).1.message_ts_map).2) :=
  rfl

end Cashouts

namespace Users

theorem processRow_risk_skip (env : Env) (st : MonState) (row : Row)
    (h : riskSkip row = true) : processRow env st row = (st, []) := by
  simp [processRow, h]

end Users

/-! Claim C1. -/

/-- C1, counterexample.  In `envA` (two fresh correlatable rows, ids 1
and 2), processing the descending batch sets the watermark to 2 and then
back down to 1: the per-row step decreases the watermark, and it is
advanced to id 1 although 1 does not exceed the current watermark 2.
After the full first cycle the watermark is 1, not 2. -/
theorem c1_counterexample :
    stepA.last_processed_id = some 2 ∧
    stepB.last_processed_id = some 1 ∧
    optLe stepA.last_processed_id stepB.last_processed_id = false ∧
    stA1.last_processed_id = some 1 := by decide

/-- C1, amended: the watermark never decreases across poll cycles (the
value at the end of a cycle is at least the value at its start), because
every id the batch loop assigns to it passes the `id > watermark` filter
of the polling query.  Within a cycle, however, the code assigns the
watermark unconditionally to each newly-mapped row id with no
exceeds-check, so it can decrease from one row step to the next (see the
counterexample). -/
theorem c1_watermark_monotone_across_cycles (env : Cashouts.Env) (st : MonState) :
    optLe st.last_processed_id (Cashouts.monitorCycle env st).1.last_processed_id = true := by
  simp only [Cashouts.monitorCycle_eq]
  rw [Cashouts.runReconcile_lastId]
  apply Cashouts.runBatch_lastId_mono env st.last_processed_id _ st
  · intro r hr
    exact optLe_of_queryKeeps _ r ((mem_queryBatch _ _ r).1 hr).2
  · exact optLe_refl _

/-! Claim C2. -/

/-- C2, counterexample.  After the first cycle of `envA`, id 2 is in the
correlation map, yet across the first two cycles two initial messages
are sent for it: the watermark dropped to 1 during the first cycle, so
the second cycle re-queries row 2 and `send_slack_message` runs before
the map-membership check. -/
theorem c2_counterexample :
    alistGet stA1.message_ts_map 2 = some (some "ts2") ∧
    ((Cashouts.monitorCycle envA stA0).2 ++ (Cashouts.monitorCycle envA stA1).2).countP
      (isInitialFor 2) = 2 := by decide

/-- C2, amended: a transaction id absent from the correlation map whose
row is returned by the polling query and correlates to a real
transaction id gets, in that cycle, exactly one initial chat message and
exactly one correlation-map entry (assuming table ids are distinct).
The second half of the original claim is false: an id already present in
the map is sent a further initial message whenever its row is returned
by the polling query again, because the send happens before the
map-membership check (see the counterexample). -/
theorem c2_new_transaction_once (env : Cashouts.Env) (st : MonState)
    (row : Cashouts.Row) (i : Nat)
    (hid : row.id = i)
    (hmem : row ∈ env.table)
    (hkeep : Cashouts.queryKeeps st.last_processed_id row = true)
    (hnodup : (env.table.map Cashouts.Row.id).Nodup)
    (hfresh : alistGet st.message_ts_map i = none)
    (hrt : (Cashouts.real_transaction_id_of
      (Cashouts.get_project_transactions_data env.ptTable) row).isSome = true) :
    (Cashouts.monitorCycle env st).2.countP (isInitialFor i) = 1 ∧
    countKeys (Cashouts.monitorCycle env st).1.message_ts_map i = 1 := by
  subst hid
  have hbmem : row ∈ Cashouts.queryBatch env.table st.last_processed_id :=
    (mem_queryBatch env.table st.last_processed_id row).2 ⟨hmem, hkeep⟩
  have hbnodup := nodup_queryBatch_ids env.table st.last_processed_id hnodup
  obtain ⟨l1, l2, hsplit, hne1, hne2⟩ := nodup_key_split Cashouts.Row.id hbmem hbnodup
  constructor
  · simp only [Cashouts.monitorCycle_eq, List.countP_append]
    rw [Cashouts.runBatch_initial_count, Cashouts.runReconcile_no_initial, hsplit]
    rw [countP_eq_one_split (by simp [hrt]) (fun x hx => by simp [hne1 x hx])
      (fun x hx => by simp [hne2 x hx])]
  · simp only [Cashouts.monitorCycle_eq]
    rw [Cashouts.runReconcile_tsMap, hsplit, Cashouts.runBatch_append,
      Cashouts.runBatch_cons]
    have hget1 : alistGet (Cashouts.runBatch env st l1).1.message_ts_map row.id = none := by
      rw [Cashouts.runBatch_get_ts_preserve env row.id l1 st hne1]
      exact hfresh
    obtain ⟨rid, hr⟩ := Option.isSome_iff_exists.1 hrt
    rw [Cashouts.runBatch_countKeys_preserve env row.id l2 _ hne2,
      Cashouts.processRow_fresh env _ row rid hr hget1]
    exact countKeys_set_fresh _ _ _ hget1

/-- C2, witness: instantiating the amended theorem on `envA` with fresh
row 2 from the empty state. -/
theorem c2_witness :
    (exRow2 ∈ envA.table ∧
     Cashouts.queryKeeps stA0.last_processed_id exRow2 = true ∧
     alistGet stA0.message_ts_map 2 = none) ∧
    ((Cashouts.monitorCycle envA stA0).2.countP (isInitialFor 2) = 1 ∧
     countKeys (Cashouts.monitorCycle envA stA0).1.message_ts_map 2 = 1) :=
  ⟨⟨by decide, by decide, by decide⟩,
   c2_new_transaction_once envA stA0 exRow2 2 (by decide) (by decide) (by decide)
     (by decide) (by decide) (by decide)⟩

/-! Claim C3. -/

/-- C3, counterexample.  In `envB` every Slack send fails.  After the
first cycle the failed row id 1 is nonetheless present in the
correlation map (with a `None` handle) and the watermark has been
advanced to 1, so the second cycle sends no initial message for it:
there is no retry, contradicting the claim that the id stays absent and
the next cycle resends. -/
theorem c3_counterexample :
    alistGet stB1.message_ts_map 1 = some none ∧
    stB1.last_processed_id = some 1 ∧
    (Cashouts.monitorCycle envB stB1).2.countP (isInitialFor 1) = 0 := by decide

/-- C3, amended: when the initial send of a fresh, correlatable row
fails with a chat-API error, the error is caught, but the id is still
recorded in the correlation map — with a `None` handle — and the
watermark is still advanced to the id.  Consequently any later cycle
whose polling query does not return the id again sends no initial
message for it: the send is never retried. -/
theorem c3_failed_send_still_recorded (env : Cashouts.Env) (st : MonState)
    (row : Cashouts.Row) (rid : Nat)
    (hfresh : alistGet st.message_ts_map row.id = none)
    (hfail : env.slackTs row.id = none)
    (hrt : Cashouts.real_transaction_id_of
      (Cashouts.get_project_transactions_data env.ptTable) row = some rid) :
    alistGet (Cashouts.processRow env st row).1.message_ts_map row.id = some none ∧
    (Cashouts.processRow env st row).1.last_processed_id = some row.id ∧
    (∀ st2 : MonState,
      (∀ r ∈ Cashouts.queryBatch env.table st2.last_processed_id, r.id ≠ row.id) →
      (Cashouts.monitorCycle env st2).2.countP (isInitialFor row.id) = 0) := by
  refine ⟨?_, ?_, ?_⟩
  · rw [Cashouts.processRow_fresh env st row rid hrt hfresh]
    show alistGet (alistSet st.message_ts_map row.id (env.slackTs row.id)) row.id = some none
    rw [alistGet_set_self, hfail]
  · rw [Cashouts.processRow_fresh env st row rid hrt hfresh]
  · intro st2 hq
    simp only [Cashouts.monitorCycle_eq, List.countP_append]
    rw [Cashouts.runBatch_initial_count, Cashouts.runReconcile_no_initial,
      List.countP_eq_zero.2 (fun r hr => by simp [hq r hr])]

/-- C3, witness: instantiating the amended theorem on `envB`, whose
Slack sends always fail, with fresh row 1 from the empty state. -/
theorem c3_witness :
    (alistGet stA0.message_ts_map exRow1.id = none ∧
     envB.slackTs exRow1.id = none) ∧
    (alistGet (Cashouts.processRow envB stA0 exRow1).1.message_ts_map exRow1.id = some none ∧
     (Cashouts.processRow envB stA0 exRow1).1.last_processed_id = some exRow1.id) :=
  ⟨⟨by decide, rfl⟩,
   ⟨(c3_failed_send_still_recorded envB stA0 exRow1 501 (by decide) rfl (by decide)).1,
    (c3_failed_send_still_recorded envB stA0 exRow1 501 (by decide) rfl (by decide)).2.1⟩⟩

/-! Claim C4. -/

/-- C4, confirmed.  When `update_slack_message` (withdrawal variant) is
called for a transaction whose recorded previous status is
`in_progress` and whose current status is `success`, exactly one
threaded reply is emitted; its text starts with the success status text,
equals the success text followed by the tronscan (resp. etherscan) URL
built from the transaction hash when the currency network is `trx`
(resp. `eth`), and is exactly the success text — no link — for every
other network. -/
theorem c4_success_transition_reply (t : Cashouts.Row) (ts : Option String)
    (prev : List (Nat × String))
    (hprev : alistGet prev t.id = some "in_progress")
    (hstat : t.status = "success") :
    (Cashouts.update_slack_message t ts prev).2 =
      [ChatEvent.threadReply t.id ts (Cashouts.post_status_text t)] ∧
    (Cashouts.update_slack_message t ts prev).1 = alistSet prev t.id t.status ∧
    (∃ rest, Cashouts.post_status_text t =
      ":large_green_circle: Transaction success\n" ++ rest) ∧
    (t.currency_network = "trx" → Cashouts.post_status_text t =
      ":large_green_circle: Transaction success\n" ++
      "\nhttps://tronscan.org/#/transaction/" ++ t.hash_transaction) ∧
    (t.currency_network = "eth" → Cashouts.post_status_text t =
      ":large_green_circle: Transaction success\n" ++
      "\nhttps://etherscan.io/tx/" ++ t.hash_transaction) ∧
    (t.currency_network ≠ "trx" → t.currency_network ≠ "eth" →
      Cashouts.post_status_text t = ":large_green_circle: Transaction success\n") := by
  have hne : t.status ≠ "in_progress" := by rw [hstat]; decide
  have hupd := Cashouts.update_transition t ts prev "in_progress" hprev hne
  refine ⟨?_, ?_, ?_, ?_, ?_, ?_⟩
  · rw [hupd]; rfl
  · rw [hupd]
  · by_cases htrx : t.currency_network = "trx"
    · refine ⟨"\nhttps://tronscan.org/#/transaction/" ++ t.hash_transaction, ?_⟩
      simp [Cashouts.post_status_text, hstat, htrx, Cashouts.get_status_text]
      rw [← String.append_assoc]
      congr 1
    · by_cases heth : t.currency_network = "eth"
      · refine ⟨"\nhttps://etherscan.io/tx/" ++ t.hash_transaction, ?_⟩
        simp [Cashouts.post_status_text, hstat, htrx, heth, Cashouts.get_status_text]
        rw [← String.append_assoc]
        congr 1
      · exact ⟨"", by simp [Cashouts.post_status_text, hstat, htrx, heth,
          Cashouts.get_status_text]⟩
  · intro htrx
    simp [Cashouts.post_status_text, hstat, htrx, Cashouts.get_status_text]
  · intro heth
    by_cases htrx : t.currency_network = "trx"
    · rw [htrx] at heth; exact absurd heth (by decide)
    · simp [Cashouts.post_status_text, hstat, htrx, heth, Cashouts.get_status_text]
  · intro htrx heth
    simp [Cashouts.post_status_text, hstat, htrx, heth, Cashouts.get_status_text]

/-- C4, witness: an `eth` withdrawal row transitioning from
`in_progress` to `success` posts one threaded reply whose text is the
success text followed by the etherscan link for hash `0xabc`. -/
theorem c4_witness :
    (alistGet [(1, "in_progress")] exRowEth.id = some "in_progress" ∧
     exRowEth.status = "success") ∧
    ((Cashouts.update_slack_message exRowEth (some "ts1") [(1, "in_progress")]).2 =
      [ChatEvent.threadReply exRowEth.id (some "ts1") (Cashouts.post_status_text exRowEth)] ∧
     Cashouts.post_status_text exRowEth =
      ":large_green_circle: Transaction success\n" ++
      "\nhttps://etherscan.io/tx/" ++ exRowEth.hash_transaction) :=
  ⟨⟨by decide, by decide⟩,
   ⟨(c4_success_transition_reply exRowEth (some "ts1") [(1, "in_progress")]
       (by decide) (by decide)).1,
    (c4_success_transition_reply exRowEth (some "ts1") [(1, "in_progress")]
       (by decide) (by decide)).2.2.2.2.1 (by decide)⟩⟩

/-! Claim C5. -/

/-- C5, counterexample.  After the first cycle of `envA`, id 2 is in the
correlation map, its recorded previous status equals its current status
(`in_progress`), yet the second cycle performs one chat call for it: the
watermark dropped to 1, so the polling query returns row 2 again and an
initial message is sent before the map-membership check. -/
theorem c5_counterexample :
    alistGet stA1.message_ts_map 2 = some (some "ts2") ∧
    alistGet stA1.previous_statuses 2 = some "in_progress" ∧
    exRow2.status = "in_progress" ∧
    (Cashouts.monitorCycle envA stA1).2.countP (eventFor 2) = 1 := by decide

/-- C5, amended: a transaction already in the correlation map whose
table status equals its last recorded status receives no chat call
during a poll cycle, provided the polling query does not return its row
again; a mapped id re-returned by the query is sent a duplicate initial
message even though its status is unchanged (see the counterexample). -/
theorem c5_unchanged_status_no_call (env : Cashouts.Env) (st : MonState) (i : Nat) (s : String)
    (_hmapped : (alistGet st.message_ts_map i).isSome = true)
    (hprev : alistGet st.previous_statuses i = some s)
    (htable : ∀ r ∈ env.table, r.id = i → r.status = s)
    (hq : ∀ r ∈ Cashouts.queryBatch env.table st.last_processed_id, r.id ≠ i) :
    (Cashouts.monitorCycle env st).2.countP (eventFor i) = 0 := by
  simp only [Cashouts.monitorCycle_eq, List.countP_append]
  rw [Cashouts.runBatch_eventFor_zero env i _ st hq]
  have hprev2 : alistGet (Cashouts.runBatch env st
      (Cashouts.queryBatch env.table st.last_processed_id)).1.previous_statuses i = some s := by
    rw [Cashouts.runBatch_prev_preserve env i _ st hq]
    exact hprev
  rw [Cashouts.runReconcile_eventFor_zero env i s htable _ _ hprev2]

/-- C5, witness: instantiating the amended theorem after the first cycle
of `envB`: row 1 is mapped, its status is unchanged, the watermark
excludes it from the query, and the next cycle makes no chat call. -/
theorem c5_witness :
    ((alistGet stB1.message_ts_map 1).isSome = true ∧
     alistGet stB1.previous_statuses 1 = some "in_progress") ∧
    (Cashouts.monitorCycle envB stB1).2.countP (eventFor 1) = 0 :=
  ⟨⟨by decide, by decide⟩,
   c5_unchanged_status_no_call envB stB1 1 "in_progress" (by decide) (by decide)
     (by decide) (by decide)⟩

/-! Claim C6. -/

/-- C6, confirmed.  `get_status_text` is a fixed total lookup in both
monitor variants: the four known statuses map to their glyph texts (the
withdrawal variant's success text carries a trailing newline, the
deposit variant's does not; `pending` carries the `@operations`
mention), and every other string is returned unchanged. -/
theorem c6_status_text_lookup :
    Cashouts.get_status_text "in_progress" = ":large_yellow_circle: Transaction in progress" ∧
    Cashouts.get_status_text "success" = ":large_green_circle: Transaction success\n" ∧
    Cashouts.get_status_text "rejected" = ":red_circle: Transaction decline" ∧
    Cashouts.get_status_text "pending" =
      ":exclamation: Transaction awaiting provider approval @operations" ∧
    Users.get_status_text "in_progress" = ":large_yellow_circle: Transaction in progress" ∧
    Users.get_status_text "success" = ":large_green_circle: Transaction success" ∧
    Users.get_status_text "rejected" = ":red_circle: Transaction decline" ∧
    Users.get_status_text "pending" =
      ":exclamation: Transaction awaiting provider approval @operations" ∧
    ∀ s : String, s ≠ "in_progress" → s ≠ "success" → s ≠ "rejected" → s ≠ "pending" →
      Cashouts.get_status_text s = s ∧ Users.get_status_text s = s := by
  refine ⟨rfl, rfl, rfl, rfl, rfl, rfl, rfl, rfl, ?_⟩
  intro s h1 h2 h3 h4
  constructor
  · simp [Cashouts.get_status_text, h1, h2, h3, h4]
  · simp [Users.get_status_text, h1, h2, h3, h4]

/-- C6, witness: the identity fallback on a status string outside the
lookup table. -/
theorem c6_witness :
    Cashouts.get_status_text "cancelled" = "cancelled" ∧
    Users.get_status_text "cancelled" = "cancelled" :=
  c6_status_text_lookup.2.2.2.2.2.2.2.2 "cancelled" (by decide) (by decide)
    (by decide) (by decide)

/-! Claim C7. -/

/-- C7, confirmed.  The real-transaction-id correlation considers at
most the 20 most recent public transactions; when no entry matches on
amount, owner merchant id and creation timestamp, the row is skipped
with no chat message, no map entry and no state change (the warning is
only printed); absence of a match is exactly "no entry satisfies the
three-way equality"; and a successful correlation returns the id of the
first matching entry in recency order — every earlier entry fails the
match. -/
theorem c7_correlation_first_match_or_skip (env : Cashouts.Env) (st : MonState)
    (row : Cashouts.Row) :
    (Cashouts.get_project_transactions_data env.ptTable).length ≤ 20 ∧
    (Cashouts.real_transaction_id_of
        (Cashouts.get_project_transactions_data env.ptTable) row = none →
      Cashouts.processRow env st row = (st, [])) ∧
    (Cashouts.real_transaction_id_of
        (Cashouts.get_project_transactions_data env.ptTable) row = none ↔
      ∀ t ∈ Cashouts.get_project_transactions_data env.ptTable,
        Cashouts.pt_matches t row = false) ∧
    (∀ i, Cashouts.real_transaction_id_of
        (Cashouts.get_project_transactions_data env.ptTable) row = some i →
      ∃ l1 t l2, Cashouts.get_project_transactions_data env.ptTable = l1 ++ t :: l2 ∧
        Cashouts.pt_matches t row = true ∧ t.id = i ∧
        ∀ u ∈ l1, Cashouts.pt_matches u row = false) := by
  refine ⟨?_, ?_, ?_, ?_⟩
  · rw [Cashouts.get_project_transactions_data]
    exact List.length_take_le 20 _
  · exact Cashouts.processRow_skip env st row
  · rw [Cashouts.real_transaction_id_of]
    simp [List.find?_eq_none]
  · intro i hi
    rw [Cashouts.real_transaction_id_of] at hi
    obtain ⟨t, hfind, hid⟩ : ∃ t, (Cashouts.get_project_transactions_data env.ptTable).find?
        (fun t => Cashouts.pt_matches t row) = some t ∧ t.id = i := by
      cases hf : (Cashouts.get_project_transactions_data env.ptTable).find?
          (fun t => Cashouts.pt_matches t row) with
      | none => rw [hf] at hi; simp at hi
      | some t =>
        rw [hf] at hi
        simp at hi
        exact ⟨t, rfl, hi⟩
    obtain ⟨l1, l2, hsplit, hall, hpt⟩ := find?_first_split hfind
    exact ⟨l1, t, l2, hsplit, hpt, hid, fun u hu => hall u hu⟩

/-- C7, witness: in `envA` the row with amount 99 matches no recent
public transaction, and its processing step changes nothing and sends
nothing. -/
theorem c7_witness :
    Cashouts.real_transaction_id_of
      (Cashouts.get_project_transactions_data envA.ptTable) noMatchRow = none ∧
    Cashouts.processRow envA stA0 noMatchRow = (stA0, []) :=
  ⟨by decide, (c7_correlation_first_match_or_skip envA stA0 noMatchRow).2.1 (by decide)⟩

/-! Claim C8. -/

/-- C8, confirmed.  When a row's owner merchant id is absent from the
merchant lookup and its project id is absent from the projects table,
the rendered initial message uses the literal placeholder `Unknown` for
both names — the first chat event of the processing step carries exactly
that text, and the text contains `Unknown` as a substring.  All
involved functions are total, so no exception can propagate. -/
theorem c8_unknown_placeholder (env : Cashouts.Env) (st : MonState)
    (row : Cashouts.Row) (rid : Nat)
    (hm : alistGet env.merchants row.owner_merchant_id = none)
    (hp : alistGet env.projects row.project_id = none)
    (hrt : Cashouts.real_transaction_id_of
      (Cashouts.get_project_transactions_data env.ptTable) row = some rid) :
    (Cashouts.processRow env st row).2.head? =
      some (ChatEvent.initial row.id
        (Cashouts.send_message_text row "Unknown" "Unknown" rid)) ∧
    (∃ a b, Cashouts.send_message_text row "Unknown" "Unknown" rid =
      a ++ "Unknown" ++ b) := by
  have hmn : (alistGet env.merchants row.owner_merchant_id).getD "Unknown" = "Unknown" := by
    rw [hm]; rfl
  have hpn : Cashouts.project_name_of env row = "Unknown" := by
    simp [Cashouts.project_name_of, hp]
  constructor
  · cases h2 : alistGet st.message_ts_map row.id with
    | none =>
      rw [Cashouts.processRow_fresh env st row rid hrt h2]
      simp [hmn, hpn]
    | some stored =>
      cases stored with
      | none =>
        rw [Cashouts.processRow_stored_none env st row rid hrt h2]
        simp [hmn, hpn]
      | some ts2 =>
        by_cases hts : ts2 = ""
        · rw [Cashouts.processRow_stored_empty env st row rid ts2 hrt h2 hts]
          simp [hmn, hpn]
        · rw [Cashouts.processRow_stored_ts env st row rid ts2 hrt h2 hts]
          simp [hmn, hpn]
  · refine ⟨">*ManualCashout*\n:man_in_tuxedo: <https://cryptoprocessing-stage.corp.merehead.xyz/merchant/" ++
      toString row.owner_merchant_id ++ "/projects|",
      "> | <https://cryptoprocessing-stage.corp.merehead.xyz/merchant/" ++
      toString row.owner_merchant_id ++ "/projects/" ++ toString row.project_id ++
      "/settings/details|" ++ "Unknown" ++
      ">\n:link: <https://cryptoprocessing-stage.corp.merehead.xyz/merchant/" ++
      toString row.owner_merchant_id ++ "/project/" ++ toString row.project_id ++
      "/transaction/details/" ++ toString rid ++
      "/crypto/withdrawal|Transaction #" ++ toString rid ++
      ">\n:money_with_wings: -" ++ toString row.amount ++ " " ++ row.currency_network ++
      "\n\n" ++ Cashouts.get_status_text row.status ++ "\n", ?_⟩
    simp only [Cashouts.send_message_text, String.append_assoc]

/-- C8, witness: row 9 of `env8`, whose merchant 999 and project 998 are
unknown, renders its initial message with the `Unknown` placeholders. -/
theorem c8_witness :
    (alistGet env8.merchants exRow8.owner_merchant_id = none ∧
     alistGet env8.projects exRow8.project_id = none) ∧
    (Cashouts.processRow env8 stA0 exRow8).2.head? =
      some (ChatEvent.initial exRow8.id
        (Cashouts.send_message_text exRow8 "Unknown" "Unknown" 777)) :=
  ⟨⟨by decide, by decide⟩,
   (c8_unknown_placeholder env8 stA0 exRow8 777 (by decide) (by decide) (by decide)).1⟩

/-! Claim C9. -/

/-- C9, confirmed.  In the deposit monitor a row whose risk score is
NULL or at most 0.5 is skipped by the guard at the top of the row loop,
before name resolution, correlation or any chat call: the processing
step leaves the state — correlation map, previous statuses and
watermark — unchanged and emits no chat event. -/
theorem c9_low_risk_skipped (env : Users.Env) (st : MonState) (row : Users.Row)
    (h : row.risk_score = none ∨ ∃ q, row.risk_score = some q ∧ q ≤ (1 : ℚ)/2) :
    Users.riskSkip row = true ∧ Users.processRow env st row = (st, []) := by
  have hskip : Users.riskSkip row = true := by
    rcases h with h | ⟨q, hq, hle⟩
    · simp [Users.riskSkip, h]
    · simp only [Users.riskSkip, hq]
      exact decide_eq_true hle
  exact ⟨hskip, Users.processRow_risk_skip env st row hskip⟩

/-- C9, witness: the NULL-risk deposit row of `envU` is skipped without
any state change or chat event. -/
theorem c9_witness :
    exDepositRow.risk_score = none ∧
    Users.processRow envU stA0 exDepositRow = (stA0, []) :=
  ⟨rfl, (c9_low_risk_skipped envU stA0 exDepositRow (Or.inl rfl)).2⟩

/-! Claim C10. -/

/-- C10, confirmed.  In both variants, the first `update_slack_message`
call for a transaction id (no previous-status entry) records the
currently observed status and posts nothing — regardless of which
transitions happened before this first recorded observation, no threaded
reply is produced by it. -/
theorem c10_first_update_records_and_posts_nothing :
    (∀ (t : Cashouts.Row) (ts : Option String) (prev : List (Nat × String)),
      alistGet prev t.id = none →
      Cashouts.update_slack_message t ts prev = (alistSet prev t.id t.status, [])) ∧
    (∀ (t : Users.Row) (ts : Option String) (prev : List (Nat × String)),
      alistGet prev t.id = none →
      Users.update_slack_message t ts prev = (alistSet prev t.id t.status, [])) := by
  constructor
  · exact fun t ts prev h => Cashouts.update_first_call t ts prev h
  · intro t ts prev h
    unfold Users.update_slack_message
    rw [h]

/-- C10, witness: the first update call for the (already successful) row
id 1 records `success` and posts no reply. -/
theorem c10_witness :
    alistGet ([] : List (Nat × String)) exRowEth.id = none ∧
    Cashouts.update_slack_message exRowEth (some "ts1") [] =
      (alistSet [] exRowEth.id exRowEth.status, []) :=
  ⟨rfl, c10_first_update_records_and_posts_nothing.1 exRowEth (some "ts1") [] rfl⟩
